import Mathlib

/-!
Shallow embedding of the metrics core of the RL Analyzer application
(`app.py`): the metrics extractor `parse_match_data`, the aggregator
`aggregate_user_metrics`, the comparator `compute_strengths_and_weaknesses`
and the tip generator `generate_tips`, together with theorems settling the
claims of the specification about them.

Python floats are modelled as rationals (ℚ); `round(x, 3)` is modelled as
decimal rounding half-to-even at three decimal places.  JSON-decoded Python
values are modelled by the inductive `JsonValue`, with `JsonValue.null`
standing for Python `None` (which is what `json.load` produces for JSON
`null`, and what `dict.get` returns for a missing key with no default).
-/

namespace RLAnalyzer

/-- A JSON-decoded Python value, as produced by `json.load`. -/
inductive JsonValue where
  | null
  | bool (b : Bool)
  | num (q : ℚ)
  | str (s : String)
  | arr (xs : List JsonValue)
  | obj (fields : List (String × JsonValue))

/-- Python `d.get(key, default)` on a JSON-decoded dict.  Decoded objects
have unique keys (`json.load` keeps the last duplicate), so first-match
lookup is faithful. -/
def dictGet : List (String × JsonValue) → String → JsonValue → JsonValue
  | [], _, default => default
  | (k, v) :: rest, key, default =>
      if k = key then v else dictGet rest key default

/-- Python `v is None`. -/
def JsonValue.isNull : JsonValue → Bool
  | .null => true
  | _ => false

/-- Python truthiness of a JSON-decoded value. -/
def truthy : JsonValue → Bool
  | .null => false
  | .bool b => b
  | .num q => !(q == 0)
  | .str s => !(s == "")
  | .arr xs => !xs.isEmpty
  | .obj fs => !fs.isEmpty

/-- Python `len(v)` for a JSON-decoded value: defined for lists, strings
and dicts, a `TypeError` otherwise. -/
def pyLen : JsonValue → Except String Nat
  | .arr xs => .ok xs.length
  | .str s => .ok s.length
  | .obj fs => .ok fs.length
  | _ => .error "TypeError: object has no len"

/-- Python `for x in v`: lists iterate their elements, strings their
one-character substrings, dicts their keys; other values raise
`TypeError`. -/
def iterElems : JsonValue → Except String (List JsonValue)
  | .arr xs => .ok xs
  | .str s => .ok (s.data.map fun c => .str (String.mk [c]))
  | .obj fs => .ok (fs.map fun p => .str p.1)
  | _ => .error "TypeError: object is not iterable"

/-- Python `isinstance(v, (int, float))` on a JSON-decoded value: numbers
and booleans (`bool` is a subclass of `int`). -/
def isNumLike : JsonValue → Bool
  | .num _ => true
  | .bool _ => true
  | _ => false

/-- Python `float(v)` for a numeric or boolean value, `0.0` otherwise;
used only where the source has already guarded with `isinstance`. -/
def numValue : JsonValue → ℚ
  | .num q => q
  | .bool b => if b then 1 else 0
  | _ => 0

/-- A decimal literal: optional sign, digits, optional fractional digits.
Used to model Python `float(s)` on strings; Python additionally accepts
exponent and infinity forms and surrounding whitespace, which never arise
in the claims settled here, so the model is a sound under-approximation of
the strings Python accepts (every string it accepts, Python accepts with
the same value). -/
def parseDecimal (s : String) : Option ℚ :=
  let core (t : List Char) : Option ℚ :=
    let intPart := t.takeWhile Char.isDigit
    let rest := t.dropWhile Char.isDigit
    let fracPart :=
      match rest with
      | '.' :: r => if r.all Char.isDigit then some r else none
      | [] => some []
      | _ => none
    match fracPart with
    | none => none
    | some frac =>
        if intPart.isEmpty && frac.isEmpty then none
        else
          let iv : ℚ := intPart.foldl (fun a c => 10 * a + (c.toNat - 48)) 0
          let fv : ℚ := frac.foldl (fun a c => 10 * a + (c.toNat - 48)) 0
          some (iv + fv / (10 ^ frac.length))
  match s.data with
  | '-' :: t => (core t).map Neg.neg
  | '+' :: t => core t
  | t => core t

/-- Python `float(v)` on a JSON-decoded value: numbers pass through,
booleans become 0/1, numeric strings are parsed (`ValueError` otherwise),
anything else raises `TypeError`. -/
def pyFloat : JsonValue → Except String ℚ
  | .num q => .ok q
  | .bool b => .ok (if b then 1 else 0)
  | .str s =>
      match parseDecimal s with
      | some q => .ok q
      | none => .error "ValueError: could not convert string to float"
  | _ => .error "TypeError: float argument must be a string or a number"

/-- ASCII lowercasing of one character.  Python `str.lower` also lowercases
letters outside ASCII; those can never produce the ASCII keywords the
source compares against, so ASCII lowercasing is faithful at every
comparison the source makes. -/
def charLower (c : Char) : Char :=
  if 65 ≤ c.toNat ∧ c.toNat ≤ 90 then Char.ofNat (c.toNat + 32) else c

/-- Python `s.lower()` (ASCII; see `charLower`). -/
def strLower (s : String) : String := String.mk (s.data.map charLower)

/-- Python `str(v).lower()` on a JSON-decoded value.  The results for
non-string values are only ever compared against the lowercase keywords
"flip", "double_jump", "jump_flip" and "boost"; Python renders `None`,
booleans, numbers, lists and dicts as text that can never lowercase to one
of those keywords (it contains capitals only where shown here, or digits,
dots or brackets), so any rendering that differs from all of them is
faithful at every comparison the source makes. -/
def pyStrLower : JsonValue → String
  | .str s => strLower s
  | .null => "none"
  | .bool true => "true"
  | .bool false => "false"
  | .num _ => "0<number>"
  | .arr _ => "[<list>]"
  | .obj _ => "\x7b<dict>\x7d"

/-- Round half to even at integer precision (Python `round` on exact
decimal values). -/
def roundHalfEven (q : ℚ) : ℤ :=
  let f := ⌊q⌋
  let frac := q - f
  if frac < 1/2 then f
  else if 1/2 < frac then f + 1
  else if f % 2 = 0 then f else f + 1

/-- Python `round(q, 3)` on exact decimal values. -/
def round3 (q : ℚ) : ℚ :=
  (roundHalfEven (q * 1000) : ℚ) / 1000

/-- The fixed-shape normalized metrics record produced by the extractor:
the four canonical keys, in the insertion order of the result
dict. -/
structure MetricsTuple where
  boost_usage : ℚ
  flip_count : ℚ
  shots : ℚ
  goals : ℚ
deriving DecidableEq, Repr

/-- The canonical metric keys in their fixed iteration order. -/
def metricKeys : List String := ["boost_usage", "flip_count", "shots", "goals"]

/-- Dictionary-style access `m[key]`, with the `.get(key, 0.0)` default for
unknown keys. -/
def MetricsTuple.get (m : MetricsTuple) : String → ℚ
  | "boost_usage" => m.boost_usage
  | "flip_count" => m.flip_count
  | "shots" => m.shots
  | "goals" => m.goals
  | _ => 0

/-- The all-zero metrics tuple. -/
def zeroMetrics : MetricsTuple := ⟨0, 0, 0, 0⟩

def flipButtons : List String := ["flip", "double_jump", "jump_flip"]

def flipActions : List String := ["flip", "double_jump"]

/-- One iteration of the event loop in `parse_match_data`.  State is
`(boost_frames, flip_count)`; `boost_frames` is still the raw Python value
(`None` until assigned).  Mirrors:

    if isinstance(event, dict):
        btn = str(event.get("button", "")).lower()
        action = str(event.get("action", "")).lower()
        if btn in {"flip", "double_jump", "jump_flip"} or action in {"flip", "double_jump"}:
            flip_count += 1
        if boost_frames is None:
            if btn == "boost" or action == "boost":
                boost_frames = (boost_frames or 0) + 1

Under the `is None` guard `(boost_frames or 0) + 1` evaluates to `1`. -/
def eventStep (st : JsonValue × Nat) (event : JsonValue) : JsonValue × Nat :=
  match event with
  | .obj efields =>
      let btn := pyStrLower (dictGet efields "button" (.str ""))
      let action := pyStrLower (dictGet efields "action" (.str ""))
      let flip := if btn ∈ flipButtons ∨ action ∈ flipActions then st.2 + 1 else st.2
      let bf := if st.1.isNull ∧ (btn = "boost" ∨ action = "boost")
                then JsonValue.num ((0 : ℚ) + 1) else st.1
      (bf, flip)
  | _ => st

/-- The event loop of `parse_match_data` guarded by the truthiness check
`if events:`.  Returns the pair `(boost_frames, flip_count)` after the
loop (the loop raises `TypeError` when `events` is truthy but not
iterable). -/
def deriveEventCounts (events bf0 : JsonValue) : Except String (JsonValue × Nat) :=
  if truthy events then
    (iterElems events).map fun es => es.foldl eventStep (bf0, 0)
  else .ok (bf0, 0)

/-- `if total_frames is None: total_frames = max(len(events), 1)` from
`parse_match_data`; `len` raises `TypeError` on scalar values. -/
def defaultTotalFrames (tf0 events : JsonValue) : Except String JsonValue :=
  if tf0.isNull then
    (pyLen events).map fun n => .num ((max n 1 : Nat) : ℚ)
  else .ok tf0

/-- `boost_usage_ratio = float(boost_frames) / float(total_frames) if
total_frames else 0.0` from `parse_match_data`: a `float` conversion can
raise `TypeError` or `ValueError`, and a truthy `total_frames` converting
to `0.0` (for example the string `"0"`) raises `ZeroDivisionError`. -/
def boostUsageOf (bf tf : JsonValue) : Except String ℚ :=
  if truthy tf then
    (pyFloat bf).bind fun qb =>
      (pyFloat tf).bind fun qt =>
        if qt = 0 then .error "ZeroDivisionError: float division by zero"
        else .ok (qb / qt)
  else .ok 0

/-- `parse_match_data` (app.py, lines 131–191), the metrics extractor.
`none` models a file whose contents `json.load` cannot parse (the only
exception the source catches); `some v` models a file decoding to `v`.
Exceptions escaping the function are modelled as `Except.error`. -/
def parse_match_data (data : Option JsonValue) : Except String MetricsTuple :=
  match data with
  | none => .ok zeroMetrics
  | some (.obj fields) =>
      let events := dictGet fields "events" (.arr [])
      let bf0 := dictGet fields "boost_frames" .null
      let tf0 := dictGet fields "total_frames" .null
      let shots0 := dictGet fields "shots" .null
      let goals0 := dictGet fields "goals" .null
      (deriveEventCounts events bf0).bind fun bfn =>
        (defaultTotalFrames tf0 events).bind fun tf =>
          let bf := if bfn.1.isNull then JsonValue.num 0 else bfn.1
          let shots := if isNumLike shots0 then shots0 else JsonValue.num 0
          let goals := if isNumLike goals0 then goals0 else JsonValue.num 0
          (boostUsageOf bf tf).bind fun usage =>
            .ok { boost_usage := round3 usage
                  flip_count := (bfn.2 : ℚ)
                  shots := numValue shots
                  goals := numValue goals }
  | some _ => .error "AttributeError: object has no attribute get"

/-- Accumulation step of the totals loop in `aggregate_user_metrics`:
a row whose stored metrics JSON cannot be parsed (`none`) is skipped by
`continue`; a parsed row adds the value of each canonical key to the running
totals. -/
def totalsStep (t : MetricsTuple) (row : Option MetricsTuple) : MetricsTuple :=
  match row with
  | none => t
  | some m => ⟨t.boost_usage + m.boost_usage, t.flip_count + m.flip_count,
               t.shots + m.shots, t.goals + m.goals⟩

/-- `aggregate_user_metrics` (app.py, lines 194–215), abstracted over the
rows the SQL query returns for the user: the stored `metrics` JSON of each row
either fails to parse (`none`) or decodes to a metrics dict (`some m`;
rows are written by `handle_upload` as the JSON of a `parse_match_data`
result, so a parsable row always carries all four canonical keys).
`count` is the number of rows, parsable or not. -/
def aggregate_user_metrics (rows : List (Option MetricsTuple)) : MetricsTuple :=
  if rows.isEmpty then zeroMetrics
  else
    let totals := rows.foldl totalsStep zeroMetrics
    let count : ℚ := rows.length
    ⟨round3 (totals.boost_usage / count), round3 (totals.flip_count / count),
     round3 (totals.shots / count), round3 (totals.goals / count)⟩

/-- Loop state of `compute_strengths_and_weaknesses`: the strengths and
weaknesses dicts in insertion order, and the running largest-delta
tracker. -/
structure CompState where
  strengths : List (String × ℚ)
  weaknesses : List (String × ℚ)
  biggest_key : Option String
  biggest_delta : ℚ

/-- One iteration of the key loop in `compute_strengths_and_weaknesses`:

    delta = user_val - avg_val
    if delta > 0: strengths[key] = round(delta, 3)
    elif delta < 0: weaknesses[key] = round(-delta, 3)
    if abs(delta) > biggest_delta:
        biggest_delta = abs(delta); biggest_key = key
-/
def cswStep (user avg : MetricsTuple) (st : CompState) (key : String) : CompState :=
  let delta := user.get key - avg.get key
  let st :=
    if delta > 0 then { st with strengths := st.strengths ++ [(key, round3 delta)] }
    else if delta < 0 then { st with weaknesses := st.weaknesses ++ [(key, round3 (-delta))] }
    else st
  if |delta| > st.biggest_delta then
    { st with biggest_key := some key, biggest_delta := |delta| }
  else st

/-- `compute_strengths_and_weaknesses` (app.py, lines 238–264).  Its
callers pass dicts produced by the aggregation functions, whose insertion
(hence iteration) order is the canonical `metricKeys` order, so the loop
is a fold over `metricKeys`. -/
def compute_strengths_and_weaknesses (user avg : MetricsTuple) :
    List (String × ℚ) × List (String × ℚ) × Option String :=
  let fin := metricKeys.foldl (cswStep user avg) ⟨[], [], none, 0⟩
  (fin.strengths, fin.weaknesses, fin.biggest_key)

def boostShortTip : String :=
  "Work on managing your boost more efficiently. Try to use small pads to stay stocked."

def flipShortTip : String :=
  "Practice aerial control and flipping mechanics in free play to increase your flip count."

def shotShortTip : String :=
  "Focus on taking more shots during matches. Position yourself to create shooting opportunities."

def goalShortTip : String :=
  "Work on finishing plays and accuracy to convert shots into goals."

def boostLongTip : String :=
  "Continue to refine your boost management. Use efficient routes to maintain high boost levels."

def flipLongTip : String :=
  "Keep practicing advanced movement like wave dashes and flip resets to stay ahead."

def shotLongTip : String :=
  "Maintain your shooting pace; practice different angles and power shots."

def goalLongTip : String :=
  "Keep improving goal conversion by working on placement and deception."

/-- One iteration of the weaknesses loop in `generate_tips` (the
`if k == ... elif ...` chain appending to `short_term`). -/
def shortStep (acc : List String) (kv : String × ℚ) : List String :=
  if kv.1 = "boost_usage" then acc ++ [boostShortTip]
  else if kv.1 = "flip_count" then acc ++ [flipShortTip]
  else if kv.1 = "shots" then acc ++ [shotShortTip]
  else if kv.1 = "goals" then acc ++ [goalShortTip]
  else acc

/-- One iteration of the strengths loop in `generate_tips` (appending to
`long_term`). -/
def longStep (acc : List String) (kv : String × ℚ) : List String :=
  if kv.1 = "boost_usage" then acc ++ [boostLongTip]
  else if kv.1 = "flip_count" then acc ++ [flipLongTip]
  else if kv.1 = "shots" then acc ++ [shotLongTip]
  else if kv.1 = "goals" then acc ++ [goalLongTip]
  else acc

/-- `generate_tips` (app.py, lines 267–294).  The strengths and weaknesses
dicts are modelled as association lists in their iteration order. -/
def generate_tips (strengths weaknesses : List (String × ℚ)) :
    List String × List String :=
  let short_term := weaknesses.foldl shortStep []
  let long_term := strengths.foldl longStep []
  (short_term, long_term)

/-! ### Spec-side definitions

These definitions follow the words of the specification, never the source; the
refinement theorems below compare them with the embedded code. -/

/-- Modelled from the spec (§4.2): the per-key arithmetic mean of a
collection of MetricsTuples, each value rounded to 3 decimals; the empty
collection yields the all-zero tuple. -/
def specMeanTuple (ts : List MetricsTuple) : MetricsTuple :=
  if ts.isEmpty then zeroMetrics
  else
    let n : ℚ := ts.length
    ⟨round3 ((ts.map MetricsTuple.boost_usage).sum / n),
     round3 ((ts.map MetricsTuple.flip_count).sum / n),
     round3 ((ts.map MetricsTuple.shots).sum / n),
     round3 ((ts.map MetricsTuple.goals).sum / n)⟩

/-- Modelled from the spec (§4.4): the fixed advice string each canonical
metric key contributes to the short-term list; unknown keys contribute
none. -/
def shortTipFor (k : String) : Option String :=
  if k = "boost_usage" then some boostShortTip
  else if k = "flip_count" then some flipShortTip
  else if k = "shots" then some shotShortTip
  else if k = "goals" then some goalShortTip
  else none

/-- Modelled from the spec (§4.4): the fixed advice string each canonical
metric key contributes to the long-term list; unknown keys contribute
none. -/
def longTipFor (k : String) : Option String :=
  if k = "boost_usage" then some boostLongTip
  else if k = "flip_count" then some flipLongTip
  else if k = "shots" then some shotLongTip
  else if k = "goals" then some goalLongTip
  else none

/-! ### Helper lemmas -/

deriving instance DecidableEq for Except

theorem except_map_ok {ε α β : Type} (f : α → β) (x : α) :
    (Except.ok x : Except ε α).map f = .ok (f x) := rfl

theorem except_map_error {ε α β : Type} (f : α → β) (e : ε) :
    (Except.error e : Except ε α).map f = .error e := rfl

theorem except_bind_ok {ε α β : Type} (f : α → Except ε β) (x : α) :
    (Except.ok x : Except ε α).bind f = f x := rfl

theorem except_bind_error {ε α β : Type} (f : α → Except ε β) (e : ε) :
    (Except.error e : Except ε α).bind f = .error e := rfl

theorem roundHalfEven_nonneg {q : ℚ} (h : 0 ≤ q) : 0 ≤ roundHalfEven q := by
  unfold roundHalfEven
  have hf : (0 : ℤ) ≤ ⌊q⌋ := Int.floor_nonneg.2 h
  dsimp only
  split_ifs <;> omega

theorem roundHalfEven_le_int {q : ℚ} {c : ℤ} (h : q ≤ c) : roundHalfEven q ≤ c := by
  unfold roundHalfEven
  have hf : ⌊q⌋ ≤ c := by
    have := Int.floor_le_floor h
    simpa using this
  have hfq : (⌊q⌋ : ℚ) ≤ q := Int.floor_le q
  dsimp only
  split_ifs with h1 h2 h3
  · exact hf
  · -- the fractional part is strictly above one half, so ⌊q⌋ < c
    have : (⌊q⌋ : ℚ) < c := by linarith
    have : ⌊q⌋ < c := by exact_mod_cast this
    omega
  · exact hf
  · -- the fractional part is exactly one half, so ⌊q⌋ < c
    have h2' : (1 : ℚ)/2 ≤ q - ⌊q⌋ := le_of_not_lt h1
    have : (⌊q⌋ : ℚ) < c := by linarith
    have : ⌊q⌋ < c := by exact_mod_cast this
    omega

theorem round3_nonneg {q : ℚ} (h : 0 ≤ q) : 0 ≤ round3 q := by
  unfold round3
  have : (0 : ℤ) ≤ roundHalfEven (q * 1000) := roundHalfEven_nonneg (by positivity)
  have : (0 : ℚ) ≤ (roundHalfEven (q * 1000) : ℚ) := by exact_mod_cast this
  positivity

theorem round3_le_one {q : ℚ} (h : q ≤ 1) : round3 q ≤ 1 := by
  unfold round3
  have h1000 : q * 1000 ≤ ((1000 : ℤ) : ℚ) := by push_cast; linarith
  have := roundHalfEven_le_int h1000
  rw [div_le_one (by norm_num)]
  exact_mod_cast this

/-- The event loop either leaves `boost_frames` unchanged or assigns it
the number one (the assignment under the `is None` guard). -/
theorem eventStep_fst_cases (st : JsonValue × Nat) (e : JsonValue) :
    (eventStep st e).1 = st.1 ∨ (eventStep st e).1 = .num 1 := by
  cases e with
  | obj efields =>
      simp only [eventStep]
      split_ifs with h
      · right
        norm_num
      · left
        rfl
  | null => left; rfl
  | bool b => left; rfl
  | num q => left; rfl
  | str s => left; rfl
  | arr xs => left; rfl

theorem foldl_eventStep_fst (es : List JsonValue) (st : JsonValue × Nat) :
    (es.foldl eventStep st).1 = st.1 ∨ (es.foldl eventStep st).1 = .num 1 := by
  induction es generalizing st with
  | nil => left; rfl
  | cons e es ih =>
      rw [List.foldl_cons]
      rcases eventStep_fst_cases st e with h | h
      · rcases ih (eventStep st e) with h' | h'
        · left; rw [h', h]
        · right; exact h'
      · rcases ih (eventStep st e) with h' | h'
        · right; rw [h', h]
        · right; exact h'

/-- After the event loop, `boost_frames` is either its initial value or
the number one. -/
theorem deriveEventCounts_fst {events bf0 : JsonValue} {bf1 : JsonValue} {n : Nat}
    (h : deriveEventCounts events bf0 = .ok (bf1, n)) :
    bf1 = bf0 ∨ bf1 = .num 1 := by
  unfold deriveEventCounts at h
  split_ifs at h
  · cases hi : iterElems events with
    | ok es =>
        rw [hi] at h
        simp only [Except.map, Except.ok.injEq] at h
        rcases foldl_eventStep_fst es (bf0, 0) with h' | h'
        · left; rw [h] at h'; exact h'
        · right; rw [h] at h'; exact h'
    | error e => rw [hi] at h; cases h
  · simp only [Except.ok.injEq, Prod.mk.injEq] at h
    left
    exact h.1.symm

theorem isNull_iff {v : JsonValue} : v.isNull = true ↔ v = .null := by
  cases v <;> simp [JsonValue.isNull]

/-- A truthiness fact used for the derived `total_frames`: `max n 1` cast
to ℚ is truthy. -/
theorem truthy_num_max (n : Nat) :
    truthy (.num ((max n 1 : Nat) : ℚ)) = true := by
  have hpos : (0 : ℚ) < ((max n 1 : Nat) : ℚ) := by
    exact_mod_cast Nat.lt_of_lt_of_le Nat.zero_lt_one (le_max_right n 1)
  simp only [truthy, Bool.not_eq_true', beq_eq_false_iff_ne, ne_eq]
  exact fun hc => absurd hc (ne_of_gt hpos)

/-! ### Claim C1 -/

/-- The raw match record of the claimed example: events
`[{"button":"flip"}, {"button":"boost"}, {"button":"boost"}]` and no
explicit overrides. -/
def exampleRecordC1 : JsonValue :=
  .obj [("events", .arr [.obj [("button", .str "flip")],
                         .obj [("button", .str "boost")],
                         .obj [("button", .str "boost")]])]

/-- C1: on the record whose events are exactly `[{"button":"flip"},
{"button":"boost"}, {"button":"boost"}]` with no explicit overrides, the
code does NOT derive `boost_frames = 2`: the `if boost_frames is None`
guard sits inside the event loop, so after the first boost event sets
`boost_frames` to 1 every later boost event is skipped.  The extractor
returns `boost_usage = 0.333` (1/3), not the claimed 0.667 (2/3). -/
theorem C1_first_boost_event_only :
    parse_match_data (some exampleRecordC1) =
      .ok { boost_usage := 333/1000, flip_count := 1, shots := 0, goals := 0 } ∧
    (333 : ℚ)/1000 ≠ 667/1000 := by
  constructor
  · have hf : strLower "flip" = "flip" := by decide
    have hb : strLower "boost" = "boost" := by decide
    have he : strLower "" = "" := by decide
    simp only [exampleRecordC1, parse_match_data]
    simp [dictGet]
    simp [deriveEventCounts, defaultTotalFrames, boostUsageOf, truthy, pyFloat,
      isNumLike, numValue, JsonValue.isNull, iterElems, pyLen, eventStep, pyStrLower,
      dictGet, flipButtons, flipActions, hf, hb, he,
      except_map_ok, except_map_error, except_bind_ok, except_bind_error]
    norm_num [round3, roundHalfEven]
  · norm_num

/-! ### Claim C2 -/

/-- A match file whose contents parse as the JSON sequence `[1, 2, 3]`. -/
def sequenceRecordC2 : JsonValue := .arr [.num 1, .num 2, .num 3]

/-- C2: the extractor is NOT total on parsable data of any shape: on data
decoding to a sequence the very first attribute access `data.get("events",
[])` raises `AttributeError`, which nothing catches (the `try` block only
wraps `json.load`), so the exception surfaces to the caller instead of the
all-zero tuple promised for unknown structures. -/
theorem C2_sequence_raises :
    parse_match_data (some sequenceRecordC2) =
      .error "AttributeError: object has no attribute get" := rfl

/-! ### Claim C3 -/

/-- A record with explicit overrides `boost_frames = 2`,
`total_frames = 1`. -/
def overrideRecordC3 : JsonValue :=
  .obj [("boost_frames", .num 2), ("total_frames", .num 1)]

/-- C3 counterexample: with explicit overrides `boost_frames = 2 >
total_frames = 1` the extractor succeeds and returns `boost_usage = 2.0`,
which lies outside `[0, 1]`. -/
theorem C3_counterexample_ratio_above_one :
    parse_match_data (some overrideRecordC3) =
      .ok { boost_usage := 2, flip_count := 0, shots := 0, goals := 0 } ∧
    ¬ ((2 : ℚ) ≤ 1) := by
  constructor
  · simp only [overrideRecordC3, parse_match_data]
    simp [dictGet]
    simp [deriveEventCounts, defaultTotalFrames, boostUsageOf, truthy, pyFloat,
      isNumLike, numValue, JsonValue.isNull, iterElems, pyLen,
      except_map_ok, except_map_error, except_bind_ok, except_bind_error]
    norm_num [round3, roundHalfEven]
  · norm_num

/-! ### Claim C4 -/

/-- A record with the explicit negative override `shots = -1`. -/
def negativeShotsRecordC4 : JsonValue := .obj [("shots", .num (-1))]

/-- C4 counterexample: with the explicit numeric override `shots = -1` the
extractor succeeds and returns `shots = -1.0 < 0`. -/
theorem C4_counterexample_negative_shots :
    parse_match_data (some negativeShotsRecordC4) =
      .ok { boost_usage := 0, flip_count := 0, shots := -1, goals := 0 } ∧
    ¬ ((0 : ℚ) ≤ -1) := by
  constructor
  · simp only [negativeShotsRecordC4, parse_match_data]
    simp [dictGet]
    simp [deriveEventCounts, defaultTotalFrames, boostUsageOf, truthy, pyFloat,
      isNumLike, numValue, JsonValue.isNull, iterElems, pyLen,
      except_map_ok, except_map_error, except_bind_ok, except_bind_error]
    norm_num [round3, roundHalfEven]
  · norm_num

/-- C3 (amended): when the record does not supply explicit `boost_frames`
or `total_frames` overrides (the keys are missing or JSON null), every
successful extraction has `boost_usage` in `[0, 1]`: the derived
`boost_frames` is 0 or 1 and the derived `total_frames` is at least 1. -/
theorem C3_amended_derived_ratio_in_unit_interval (data : Option JsonValue) (m : MetricsTuple)
    (hno : ∀ fields, data = some (.obj fields) →
      (dictGet fields "boost_frames" .null).isNull = true ∧
      (dictGet fields "total_frames" .null).isNull = true)
    (hok : parse_match_data data = .ok m) :
    0 ≤ m.boost_usage ∧ m.boost_usage ≤ 1 := by
  rcases data with _ | v
  · simp only [parse_match_data, Except.ok.injEq] at hok
    subst hok
    constructor <;> norm_num [zeroMetrics]
  rcases v with _ | b | q | s | xs | fields
  · exact absurd hok (by simp [parse_match_data])
  · exact absurd hok (by simp [parse_match_data])
  · exact absurd hok (by simp [parse_match_data])
  · exact absurd hok (by simp [parse_match_data])
  · exact absurd hok (by simp [parse_match_data])
  · obtain ⟨hbf, htf⟩ := hno fields rfl
    rw [isNull_iff] at hbf htf
    simp only [parse_match_data] at hok
    rw [hbf, htf] at hok
    cases hd : deriveEventCounts (dictGet fields "events" (.arr [])) JsonValue.null with
    | error e => rw [hd] at hok; cases hok
    | ok bfn =>
        obtain ⟨bf1, fc⟩ := bfn
        rw [hd, except_bind_ok] at hok
        cases hl : pyLen (dictGet fields "events" (.arr [])) with
        | error e =>
            rw [show defaultTotalFrames JsonValue.null (dictGet fields "events" (.arr [])) =
                  .error e by simp [defaultTotalFrames, JsonValue.isNull, hl, Except.map]] at hok
            cases hok
        | ok len =>
            rw [show defaultTotalFrames JsonValue.null (dictGet fields "events" (.arr [])) =
                  .ok (.num ((max len 1 : Nat) : ℚ)) by
                simp [defaultTotalFrames, JsonValue.isNull, hl, Except.map]] at hok
            rw [except_bind_ok] at hok
            have hbfc : ∃ c : ℚ,
                ((if bf1.isNull = true then JsonValue.num 0 else bf1) = .num c) ∧
                0 ≤ c ∧ c ≤ 1 := by
              rcases deriveEventCounts_fst hd with h1 | h1 <;> subst h1
              · exact ⟨0, by simp [JsonValue.isNull], le_refl 0, by norm_num⟩
              · exact ⟨1, by simp [JsonValue.isNull], by norm_num, le_refl 1⟩
            obtain ⟨c, hbfe, hc0, hc1⟩ := hbfc
            rw [hbfe] at hok
            have hqpos : (0 : ℚ) < ((max len 1 : Nat) : ℚ) := by
              exact_mod_cast Nat.lt_of_lt_of_le Nat.zero_lt_one (le_max_right len 1)
            have hbu : boostUsageOf (.num c) (.num ((max len 1 : Nat) : ℚ)) =
                .ok (c / ((max len 1 : Nat) : ℚ)) := by
              unfold boostUsageOf
              rw [if_pos (truthy_num_max len)]
              simp only [pyFloat, except_bind_ok]
              rw [if_neg (ne_of_gt hqpos)]
            rw [hbu, except_bind_ok] at hok
            simp only [Except.ok.injEq] at hok
            subst hok
            have h0 : 0 ≤ c / ((max len 1 : Nat) : ℚ) := div_nonneg hc0 hqpos.le
            have h1 : c / ((max len 1 : Nat) : ℚ) ≤ 1 := by
              rw [div_le_one hqpos]
              calc c ≤ 1 := hc1
                _ ≤ ((max len 1 : Nat) : ℚ) := by exact_mod_cast le_max_right len 1
            exact ⟨round3_nonneg h0, round3_le_one h1⟩

/-- A record with a single boost event and no overrides. -/
def noOverrideRecordC3 : JsonValue :=
  .obj [("events", .arr [.obj [("button", .str "boost")]])]

/-- Witness for C3 (amended) at the concrete record
`{"events": [{"button": "boost"}]}`, which extracts to
`boost_usage = 1.0`. -/
theorem C3_amended_witness :
    0 ≤ (MetricsTuple.mk 1 0 0 0).boost_usage ∧ (MetricsTuple.mk 1 0 0 0).boost_usage ≤ 1 :=
  C3_amended_derived_ratio_in_unit_interval (some noOverrideRecordC3) ⟨1, 0, 0, 0⟩
    (by intro fields h
        simp only [noOverrideRecordC3, Option.some.injEq, JsonValue.obj.injEq] at h
        subst h
        constructor <;> decide)
    (by have hb : strLower "boost" = "boost" := by decide
        have he : strLower "" = "" := by decide
        simp only [noOverrideRecordC3, parse_match_data]
        simp [dictGet]
        simp [deriveEventCounts, defaultTotalFrames, boostUsageOf, truthy, pyFloat,
          isNumLike, numValue, JsonValue.isNull, iterElems, pyLen, eventStep, pyStrLower,
          dictGet, flipButtons, flipActions, hb, he,
          except_map_ok, except_map_error, except_bind_ok, except_bind_error]
        norm_num [round3, roundHalfEven])

/-- Under success, a `total_frames` value produced by `defaultTotalFrames`
converts via `float` only to nonnegative values, provided the explicit
override (if taken) does. -/
theorem defaultTotalFrames_float_nonneg {tf0 ev tf : JsonValue}
    (h0 : ∀ q, pyFloat tf0 = .ok q → 0 ≤ q)
    (h : defaultTotalFrames tf0 ev = .ok tf) :
    ∀ q, pyFloat tf = .ok q → 0 ≤ q := by
  unfold defaultTotalFrames at h
  split_ifs at h
  · cases hl : pyLen ev with
    | error e => rw [hl] at h; cases h
    | ok n =>
        rw [hl, except_map_ok, Except.ok.injEq] at h
        subst h
        intro q hq
        simp only [pyFloat, Except.ok.injEq] at hq
        subst hq
        positivity
  · rw [Except.ok.injEq] at h
    subst h
    exact h0

/-- The boost-usage value is nonnegative whenever both operands convert
via `float` only to nonnegative values. -/
theorem boostUsageOf_nonneg {bf tf : JsonValue} {u : ℚ}
    (hb : ∀ q, pyFloat bf = .ok q → 0 ≤ q)
    (ht : ∀ q, pyFloat tf = .ok q → 0 ≤ q)
    (h : boostUsageOf bf tf = .ok u) : 0 ≤ u := by
  unfold boostUsageOf at h
  split_ifs at h
  · cases hfb : pyFloat bf with
    | error e => rw [hfb] at h; cases h
    | ok qb =>
        rw [hfb, except_bind_ok] at h
        cases hft : pyFloat tf with
        | error e => rw [hft] at h; cases h
        | ok qt =>
            rw [hft, except_bind_ok] at h
            by_cases hq : qt = 0
            · rw [if_pos hq] at h; cases h
            · rw [if_neg hq, Except.ok.injEq] at h
              subst h
              exact div_nonneg (hb _ hfb) (ht _ hft)
  · rw [Except.ok.injEq] at h
    subst h
    exact le_refl 0

/-- C4 (amended): every result of the extractor is a full MetricsTuple
(all four canonical keys), `flip_count` is always nonnegative for every
successful extraction, and all four values are nonnegative provided the
explicit overrides the record supplies (if any) are themselves
nonnegative; a negative explicit override propagates to the output (see
the counterexample). -/
theorem C4_amended_nonneg_without_negative_overrides (data : Option JsonValue) (m : MetricsTuple)
    (hok : parse_match_data data = .ok m) :
    0 ≤ m.flip_count ∧
    ((∀ fields, data = some (.obj fields) →
        (isNumLike (dictGet fields "shots" .null) = true →
          0 ≤ numValue (dictGet fields "shots" .null)) ∧
        (isNumLike (dictGet fields "goals" .null) = true →
          0 ≤ numValue (dictGet fields "goals" .null)) ∧
        (∀ q, pyFloat (dictGet fields "boost_frames" .null) = .ok q → 0 ≤ q) ∧
        (∀ q, pyFloat (dictGet fields "total_frames" .null) = .ok q → 0 ≤ q)) →
      0 ≤ m.boost_usage ∧ 0 ≤ m.flip_count ∧ 0 ≤ m.shots ∧ 0 ≤ m.goals) := by
  rcases data with _ | v
  · simp only [parse_match_data, Except.ok.injEq] at hok
    subst hok
    exact ⟨le_refl 0, fun _ => ⟨le_refl 0, le_refl 0, le_refl 0, le_refl 0⟩⟩
  rcases v with _ | b | q | s | xs | fields
  · exact absurd hok (by simp [parse_match_data])
  · exact absurd hok (by simp [parse_match_data])
  · exact absurd hok (by simp [parse_match_data])
  · exact absurd hok (by simp [parse_match_data])
  · exact absurd hok (by simp [parse_match_data])
  · simp only [parse_match_data] at hok
    cases hd : deriveEventCounts (dictGet fields "events" (.arr []))
        (dictGet fields "boost_frames" .null) with
    | error e => rw [hd] at hok; cases hok
    | ok bfn =>
        obtain ⟨bf1, fc⟩ := bfn
        rw [hd, except_bind_ok] at hok
        cases ht : defaultTotalFrames (dictGet fields "total_frames" .null)
            (dictGet fields "events" (.arr [])) with
        | error e => rw [ht] at hok; cases hok
        | ok tf =>
            rw [ht, except_bind_ok] at hok
            cases hu : boostUsageOf (if bf1.isNull = true then JsonValue.num 0 else bf1) tf with
            | error e => rw [hu] at hok; cases hok
            | ok usage =>
                rw [hu, except_bind_ok] at hok
                simp only [Except.ok.injEq] at hok
                subst hok
                dsimp only
                constructor
                · positivity
                · intro hov
                  obtain ⟨hshots, hgoals, hbf, htf⟩ := hov fields rfl
                  have hbf' : ∀ q, pyFloat (if bf1.isNull = true then JsonValue.num 0 else bf1) =
                      .ok q → 0 ≤ q := by
                    split_ifs with hn
                    · intro q hq
                      simp only [pyFloat, Except.ok.injEq] at hq
                      subst hq
                      exact le_refl 0
                    · rcases deriveEventCounts_fst hd with h1 | h1
                      · rw [h1]; exact hbf
                      · rw [h1]
                        intro q hq
                        simp only [pyFloat, Except.ok.injEq] at hq
                        subst hq
                        norm_num
                  have husage : 0 ≤ usage :=
                    boostUsageOf_nonneg hbf' (defaultTotalFrames_float_nonneg htf ht) hu
                  refine ⟨round3_nonneg husage, by positivity, ?_, ?_⟩
                  · by_cases hnum : isNumLike (dictGet fields "shots" JsonValue.null) = true
                    · rw [if_pos hnum]
                      exact hshots hnum
                    · rw [if_neg hnum]
                      norm_num [numValue]
                  · by_cases hnum : isNumLike (dictGet fields "goals" JsonValue.null) = true
                    · rw [if_pos hnum]
                      exact hgoals hnum
                    · rw [if_neg hnum]
                      norm_num [numValue]

/-- A record with the explicit nonnegative override `shots = 3`. -/
def nonnegShotsRecordC4 : JsonValue := .obj [("shots", .num 3)]

/-- Witness for C4 (amended) at the concrete record `{"shots": 3}`, which
extracts to `{boost_usage: 0.0, flip_count: 0.0, shots: 3.0,
goals: 0.0}`: the unconditional flip-count conjunct and, with the
nonnegative-override condition discharged, all four values. -/
theorem C4_amended_witness :
    0 ≤ (MetricsTuple.mk 0 0 3 0).flip_count ∧
    (0 ≤ (MetricsTuple.mk 0 0 3 0).boost_usage ∧ 0 ≤ (MetricsTuple.mk 0 0 3 0).flip_count ∧
     0 ≤ (MetricsTuple.mk 0 0 3 0).shots ∧ 0 ≤ (MetricsTuple.mk 0 0 3 0).goals) := by
  have h := C4_amended_nonneg_without_negative_overrides (some nonnegShotsRecordC4) ⟨0, 0, 3, 0⟩
    (by simp only [nonnegShotsRecordC4, parse_match_data]
        simp [dictGet]
        simp [deriveEventCounts, defaultTotalFrames, boostUsageOf, truthy, pyFloat,
          isNumLike, numValue, JsonValue.isNull, iterElems, pyLen,
          except_map_ok, except_map_error, except_bind_ok, except_bind_error]
        norm_num [round3, roundHalfEven])
  refine ⟨h.1, h.2 ?_⟩
  intro fields hf
  simp only [nonnegShotsRecordC4, Option.some.injEq, JsonValue.obj.injEq] at hf
  subst hf
  refine ⟨?_, ?_, ?_, ?_⟩
  · intro hn
    simp [dictGet, numValue]
  · intro hn
    simp [dictGet, isNumLike] at hn
  · intro q hq
    simp [dictGet, pyFloat] at hq
  · intro q hq
    simp [dictGet, pyFloat] at hq

/-! ### Comparator lemmas

The loop of `compute_strengths_and_weaknesses` is characterized
component by component: the strengths and weaknesses dicts are filter-maps
of the key order, and the largest-delta tracker is a separate fold. -/

/-- The largest-delta tracking of one loop iteration, in isolation:
`if abs(delta) > biggest_delta: biggest_delta = abs(delta); biggest_key = key`. -/
def bigStep (u a : MetricsTuple) (p : Option String × ℚ) (key : String) :
    Option String × ℚ :=
  if |u.get key - a.get key| > p.2 then (some key, |u.get key - a.get key|) else p

theorem cswStep_biggest (u a : MetricsTuple) (st : CompState) (key : String) :
    ((cswStep u a st key).biggest_key, (cswStep u a st key).biggest_delta) =
      (if |u.get key - a.get key| > st.biggest_delta
       then (some key, |u.get key - a.get key|)
       else (st.biggest_key, st.biggest_delta)) := by
  simp only [cswStep]
  split_ifs <;> rfl

theorem cswStep_strengths (u a : MetricsTuple) (st : CompState) (key : String) :
    (cswStep u a st key).strengths =
      st.strengths ++
        (if 0 < u.get key - a.get key
         then [(key, round3 (u.get key - a.get key))] else []) := by
  simp only [cswStep]
  split_ifs <;> simp_all <;> linarith

theorem cswStep_weaknesses (u a : MetricsTuple) (st : CompState) (key : String) :
    (cswStep u a st key).weaknesses =
      st.weaknesses ++
        (if u.get key - a.get key < 0
         then [(key, round3 (-(u.get key - a.get key)))] else []) := by
  simp only [cswStep]
  split_ifs <;> simp_all <;> linarith

theorem foldl_csw_strengths (u a : MetricsTuple) (ks : List String) (st : CompState) :
    (ks.foldl (cswStep u a) st).strengths =
      st.strengths ++ ks.filterMap (fun k =>
        if 0 < u.get k - a.get k then some (k, round3 (u.get k - a.get k)) else none) := by
  induction ks generalizing st with
  | nil => simp
  | cons k ks ih =>
      rw [List.foldl_cons, ih, cswStep_strengths, List.filterMap_cons]
      by_cases h : 0 < u.get k - a.get k
      · simp [h]
      · simp [h]

theorem foldl_csw_weaknesses (u a : MetricsTuple) (ks : List String) (st : CompState) :
    (ks.foldl (cswStep u a) st).weaknesses =
      st.weaknesses ++ ks.filterMap (fun k =>
        if u.get k - a.get k < 0 then some (k, round3 (-(u.get k - a.get k))) else none) := by
  induction ks generalizing st with
  | nil => simp
  | cons k ks ih =>
      rw [List.foldl_cons, ih, cswStep_weaknesses, List.filterMap_cons]
      by_cases h : u.get k - a.get k < 0
      · simp [h]
      · simp [h]

theorem foldl_csw_biggest (u a : MetricsTuple) (ks : List String) (st : CompState) :
    ((ks.foldl (cswStep u a) st).biggest_key, (ks.foldl (cswStep u a) st).biggest_delta) =
      ks.foldl (bigStep u a) (st.biggest_key, st.biggest_delta) := by
  induction ks generalizing st with
  | nil => rfl
  | cons k ks ih =>
      rw [List.foldl_cons, List.foldl_cons, ih]
      congr 1
      rw [cswStep_biggest]
      rfl

theorem compute_strengths_eq (u a : MetricsTuple) :
    (compute_strengths_and_weaknesses u a).1 =
      metricKeys.filterMap (fun k =>
        if 0 < u.get k - a.get k then some (k, round3 (u.get k - a.get k)) else none) := by
  show (List.foldl (cswStep u a) ⟨[], [], none, 0⟩ metricKeys).strengths = _
  rw [foldl_csw_strengths]
  rfl

theorem compute_weaknesses_eq (u a : MetricsTuple) :
    (compute_strengths_and_weaknesses u a).2.1 =
      metricKeys.filterMap (fun k =>
        if u.get k - a.get k < 0 then some (k, round3 (-(u.get k - a.get k))) else none) := by
  show (List.foldl (cswStep u a) ⟨[], [], none, 0⟩ metricKeys).weaknesses = _
  rw [foldl_csw_weaknesses]
  rfl

theorem compute_biggest_eq (u a : MetricsTuple) :
    (compute_strengths_and_weaknesses u a).2.2 =
      (metricKeys.foldl (bigStep u a) (none, 0)).1 := by
  show (List.foldl (cswStep u a) ⟨[], [], none, 0⟩ metricKeys).biggest_key = _
  exact congrArg Prod.fst (foldl_csw_biggest u a metricKeys ⟨[], [], none, 0⟩)

/-- Complete characterization of the largest-delta fold: either no key
exceeds the initial threshold and the state is unchanged, or the list
splits around the first key attaining the final maximum: keys before it
have strictly smaller absolute delta (a tie never triggers replacement)
and keys after it have no larger absolute delta. -/
theorem bigFold_spec (u a : MetricsTuple) (ks : List String) (p : Option String × ℚ) :
    (ks.foldl (bigStep u a) p = p ∧ ∀ k ∈ ks, |u.get k - a.get k| ≤ p.2) ∨
    (∃ pre k post, ks = pre ++ k :: post ∧
      (ks.foldl (bigStep u a) p).1 = some k ∧
      (ks.foldl (bigStep u a) p).2 = |u.get k - a.get k| ∧
      p.2 < |u.get k - a.get k| ∧
      (∀ k' ∈ pre, |u.get k' - a.get k'| < |u.get k - a.get k|) ∧
      (∀ k' ∈ post, |u.get k' - a.get k'| ≤ |u.get k - a.get k|)) := by
  induction ks generalizing p with
  | nil => left; exact ⟨rfl, by simp⟩
  | cons k0 ks ih =>
      rw [List.foldl_cons]
      by_cases c0 : |u.get k0 - a.get k0| > p.2
      · have hstep : bigStep u a p k0 = (some k0, |u.get k0 - a.get k0|) := by
          simp [bigStep, c0]
        rw [hstep]
        rcases ih (some k0, |u.get k0 - a.get k0|) with ⟨heq, hle⟩ |
          ⟨pre, k, post, hks, h1, h2, h3, h4, h5⟩
        · right
          refine ⟨[], k0, ks, rfl, ?_, ?_, c0, by simp, ?_⟩
          · rw [heq]
          · rw [heq]
          · intro k' hk'
            exact hle k' hk'
        · right
          have h3' : |u.get k0 - a.get k0| < |u.get k - a.get k| := h3
          refine ⟨k0 :: pre, k, post, by simp [hks], h1, h2, lt_trans c0 h3', ?_, h5⟩
          intro k' hk'
          rcases List.mem_cons.mp hk' with rfl | hmem
          · exact h3'
          · exact h4 k' hmem
      · have hstep : bigStep u a p k0 = p := by
          simp [bigStep, c0]
        rw [hstep]
        rcases ih p with ⟨heq, hle⟩ | ⟨pre, k, post, hks, h1, h2, h3, h4, h5⟩
        · left
          refine ⟨heq, ?_⟩
          intro k' hk'
          rcases List.mem_cons.mp hk' with rfl | hmem
          · exact le_of_not_lt c0
          · exact hle k' hmem
        · right
          refine ⟨k0 :: pre, k, post, by simp [hks], h1, h2, h3, ?_, h5⟩
          intro k' hk'
          rcases List.mem_cons.mp hk' with rfl | hmem
          · exact lt_of_le_of_lt (le_of_not_lt c0) h3
          · exact h4 k' hmem

/-! ### Claim C5 -/

/-- C5: the largest-delta tracker uses strict greater-than over the fixed
canonical key order, so the result is `none` exactly when every delta is
zero, and otherwise it is the FIRST key (in iteration order) attaining the
maximum absolute delta: every earlier key has a strictly smaller absolute
delta (ties never trigger replacement) and every later key has no larger
one. -/
theorem C5_largest_delta_first_max (u a : MetricsTuple) :
    ((compute_strengths_and_weaknesses u a).2.2 = none ↔
      ∀ k ∈ metricKeys, u.get k - a.get k = 0) ∧
    (∀ k, (compute_strengths_and_weaknesses u a).2.2 = some k →
      ∃ pre post, metricKeys = pre ++ k :: post ∧
        (∀ k' ∈ pre, |u.get k' - a.get k'| < |u.get k - a.get k|) ∧
        (∀ k' ∈ post, |u.get k' - a.get k'| ≤ |u.get k - a.get k|)) := by
  have hbig := compute_biggest_eq u a
  constructor
  · rw [hbig]
    rcases bigFold_spec u a metricKeys (none, 0) with ⟨heq, hle⟩ |
      ⟨pre, k, post, hks, h1, h2, h3, h4, h5⟩
    · rw [heq]
      constructor
      · intro _ k hk
        have h0 : |u.get k - a.get k| ≤ 0 := hle k hk
        exact abs_nonpos_iff.mp h0
      · intro _
        rfl
    · rw [h1]
      constructor
      · intro h
        cases h
      · intro hall
        exfalso
        have hk : k ∈ metricKeys := by rw [hks]; simp
        have h0 := hall k hk
        have h3' : (0 : ℚ) < |u.get k - a.get k| := h3
        rw [h0, abs_zero] at h3'
        exact lt_irrefl 0 h3'
  · intro k hk
    rw [hbig] at hk
    rcases bigFold_spec u a metricKeys (none, 0) with ⟨heq, hle⟩ |
      ⟨pre, k', post, hks, h1, h2, h3, h4, h5⟩
    · rw [heq] at hk
      cases hk
    · rw [h1] at hk
      injection hk with hkk
      subst hkk
      exact ⟨pre, post, hks, h4, h5⟩

/-- Witness for C5 at the concrete subject/baseline pair of the
specification example: subject (0.5, 10, 3, 1) against baseline
(0.4, 10, 5, 1), whose largest delta belongs to "shots". -/
theorem C5_witness :
    ∃ pre post, metricKeys = pre ++ "shots" :: post ∧
      (∀ k' ∈ pre,
        |(MetricsTuple.mk (1/2) 10 3 1).get k' - (MetricsTuple.mk (2/5) 10 5 1).get k'| <
        |(MetricsTuple.mk (1/2) 10 3 1).get "shots" - (MetricsTuple.mk (2/5) 10 5 1).get "shots"|) ∧
      (∀ k' ∈ post,
        |(MetricsTuple.mk (1/2) 10 3 1).get k' - (MetricsTuple.mk (2/5) 10 5 1).get k'| ≤
        |(MetricsTuple.mk (1/2) 10 3 1).get "shots" - (MetricsTuple.mk (2/5) 10 5 1).get "shots"|) :=
  (C5_largest_delta_first_max ⟨1/2, 10, 3, 1⟩ ⟨2/5, 10, 5, 1⟩).2 "shots"
    (by have h10 : |(1 : ℚ)/10| = 1/10 := by norm_num
        rw [compute_biggest_eq]
        norm_num [metricKeys, bigStep, MetricsTuple.get, h10])

/-! ### Claim C6 -/

/-- C6: each canonical key is classified by the sign of its delta: into
strengths with magnitude `round(delta, 3)` when positive, into weaknesses
with magnitude `round(-delta, 3)` when negative, and into neither when
zero — never into both. -/
theorem C6_sign_classification (u a : MetricsTuple) (key : String) (hk : key ∈ metricKeys) :
    (0 < u.get key - a.get key →
      (key, round3 (u.get key - a.get key)) ∈ (compute_strengths_and_weaknesses u a).1 ∧
      ∀ v, (key, v) ∉ (compute_strengths_and_weaknesses u a).2.1) ∧
    (u.get key - a.get key < 0 →
      (∀ v, (key, v) ∉ (compute_strengths_and_weaknesses u a).1) ∧
      (key, round3 (-(u.get key - a.get key))) ∈ (compute_strengths_and_weaknesses u a).2.1) ∧
    (u.get key - a.get key = 0 →
      (∀ v, (key, v) ∉ (compute_strengths_and_weaknesses u a).1) ∧
      ∀ v, (key, v) ∉ (compute_strengths_and_weaknesses u a).2.1) := by
  rw [compute_strengths_eq, compute_weaknesses_eq]
  refine ⟨fun h => ⟨?_, ?_⟩, fun h => ⟨?_, ?_⟩, fun h => ⟨?_, ?_⟩⟩
  · rw [List.mem_filterMap]
    exact ⟨key, hk, by rw [if_pos h]⟩
  · intro v hv
    rw [List.mem_filterMap] at hv
    obtain ⟨k', hk', hfk⟩ := hv
    by_cases hc : u.get k' - a.get k' < 0
    · rw [if_pos hc, Option.some.injEq, Prod.mk.injEq] at hfk
      rw [hfk.1] at hc
      linarith
    · rw [if_neg hc] at hfk
      cases hfk
  · intro v hv
    rw [List.mem_filterMap] at hv
    obtain ⟨k', hk', hfk⟩ := hv
    by_cases hc : 0 < u.get k' - a.get k'
    · rw [if_pos hc, Option.some.injEq, Prod.mk.injEq] at hfk
      rw [hfk.1] at hc
      linarith
    · rw [if_neg hc] at hfk
      cases hfk
  · rw [List.mem_filterMap]
    exact ⟨key, hk, by rw [if_pos h]⟩
  · intro v hv
    rw [List.mem_filterMap] at hv
    obtain ⟨k', hk', hfk⟩ := hv
    by_cases hc : 0 < u.get k' - a.get k'
    · rw [if_pos hc, Option.some.injEq, Prod.mk.injEq] at hfk
      rw [hfk.1] at hc
      linarith
    · rw [if_neg hc] at hfk
      cases hfk
  · intro v hv
    rw [List.mem_filterMap] at hv
    obtain ⟨k', hk', hfk⟩ := hv
    by_cases hc : u.get k' - a.get k' < 0
    · rw [if_pos hc, Option.some.injEq, Prod.mk.injEq] at hfk
      rw [hfk.1] at hc
      linarith
    · rw [if_neg hc] at hfk
      cases hfk

/-- Witness for C6 at subject (1, 0, 0, 0) against the all-zero baseline,
key "boost_usage" (delta 1 > 0). -/
theorem C6_witness :
    ("boost_usage", round3 ((MetricsTuple.mk 1 0 0 0).get "boost_usage" -
        (MetricsTuple.mk 0 0 0 0).get "boost_usage")) ∈
      (compute_strengths_and_weaknesses ⟨1, 0, 0, 0⟩ ⟨0, 0, 0, 0⟩).1 ∧
    ∀ v, ("boost_usage", v) ∉ (compute_strengths_and_weaknesses ⟨1, 0, 0, 0⟩ ⟨0, 0, 0, 0⟩).2.1 :=
  (C6_sign_classification ⟨1, 0, 0, 0⟩ ⟨0, 0, 0, 0⟩ "boost_usage" (by simp [metricKeys])).1
    (by norm_num [MetricsTuple.get])

/-! ### Claim C9 -/

/-- C9: comparing a tuple with itself yields empty strengths, empty
weaknesses and no largest-delta key. -/
theorem C9_compare_self (x : MetricsTuple) :
    compute_strengths_and_weaknesses x x = ([], [], none) := by
  have e : compute_strengths_and_weaknesses x x =
      ((compute_strengths_and_weaknesses x x).1,
       (compute_strengths_and_weaknesses x x).2.1,
       (compute_strengths_and_weaknesses x x).2.2) := rfl
  rw [e, compute_strengths_eq, compute_weaknesses_eq, compute_biggest_eq]
  simp [metricKeys, bigStep, sub_self, abs_zero]

/-! ### Aggregator lemmas -/

theorem foldl_totalsStep (rows : List (Option MetricsTuple)) (t : MetricsTuple) :
    rows.foldl totalsStep t =
      ⟨t.boost_usage + ((rows.filterMap id).map MetricsTuple.boost_usage).sum,
       t.flip_count + ((rows.filterMap id).map MetricsTuple.flip_count).sum,
       t.shots + ((rows.filterMap id).map MetricsTuple.shots).sum,
       t.goals + ((rows.filterMap id).map MetricsTuple.goals).sum⟩ := by
  induction rows generalizing t with
  | nil =>
      cases t
      simp
  | cons r rows ih =>
      rw [List.foldl_cons, ih]
      cases r with
      | none => simp [totalsStep]
      | some m =>
          simp only [totalsStep, List.filterMap_cons, id, List.map_cons, List.sum_cons,
            MetricsTuple.mk.injEq]
          refine ⟨by ring, by ring, by ring, by ring⟩

/-! ### Claim C7 -/

/-- C7: the aggregator returns the per-key arithmetic mean rounded to 3
decimals; the empty collection yields the all-zero tuple and a singleton
collection yields its tuple after rounding. -/
theorem C7_aggregate_is_rounded_mean :
    aggregate_user_metrics [] = zeroMetrics ∧
    (∀ ts : List MetricsTuple, aggregate_user_metrics (ts.map some) = specMeanTuple ts) ∧
    (∀ t : MetricsTuple, aggregate_user_metrics [some t] =
      ⟨round3 t.boost_usage, round3 t.flip_count, round3 t.shots, round3 t.goals⟩) := by
  have hmap : ∀ ts : List MetricsTuple,
      aggregate_user_metrics (ts.map some) = specMeanTuple ts := by
    intro ts
    unfold aggregate_user_metrics specMeanTuple
    cases ts with
    | nil => rfl
    | cons t ts =>
        rw [if_neg (by simp), if_neg (by simp)]
        rw [foldl_totalsStep]
        simp [zeroMetrics, List.filterMap_cons]
  refine ⟨rfl, hmap, fun t => ?_⟩
  have h1 := hmap [t]
  rw [show ([t].map some) = [some t] from rfl] at h1
  rw [h1]
  simp [specMeanTuple]

/-! ### Claim C10 -/

/-- C10: a stored row whose metrics JSON cannot be parsed (modelled as
`none`) contributes nothing to the totals but still counts in the
divisor: the aggregate is the sum over parsable rows divided by the TOTAL
number of rows. -/
theorem C10_unparsable_rows_count_in_divisor (rows : List (Option MetricsTuple))
    (h : rows ≠ []) :
    aggregate_user_metrics rows =
      ⟨round3 (((rows.filterMap id).map MetricsTuple.boost_usage).sum / rows.length),
       round3 (((rows.filterMap id).map MetricsTuple.flip_count).sum / rows.length),
       round3 (((rows.filterMap id).map MetricsTuple.shots).sum / rows.length),
       round3 (((rows.filterMap id).map MetricsTuple.goals).sum / rows.length)⟩ := by
  unfold aggregate_user_metrics
  rw [if_neg (by simpa [List.isEmpty_iff] using h)]
  rw [foldl_totalsStep]
  simp [zeroMetrics]

/-- Witness for C10 at the concrete rows [parsable (1, 2, 3, 4),
unparsable]: the parsable totals are divided by 2, the total row count. -/
theorem C10_witness :
    ([some (MetricsTuple.mk 1 2 3 4), none] ≠ []) ∧
    aggregate_user_metrics [some (MetricsTuple.mk 1 2 3 4), none] =
      ⟨1/2, 1, 3/2, 2⟩ := by
  constructor
  · simp
  · rw [C10_unparsable_rows_count_in_divisor _ (by simp)]
    simp only [List.filterMap_cons, id, List.map_cons, List.map_nil, List.sum_cons,
      List.sum_nil, List.length_cons, List.length_nil, List.filterMap_nil]
    norm_num [round3, roundHalfEven]

/-! ### Claim C8 -/

theorem shortStep_eq (acc : List String) (kv : String × ℚ) :
    shortStep acc kv = acc ++ (shortTipFor kv.1).toList := by
  unfold shortStep shortTipFor
  split_ifs <;> simp

theorem longStep_eq (acc : List String) (kv : String × ℚ) :
    longStep acc kv = acc ++ (longTipFor kv.1).toList := by
  unfold longStep longTipFor
  split_ifs <;> simp

theorem foldl_shortStep (l : List (String × ℚ)) (acc : List String) :
    l.foldl shortStep acc = acc ++ l.filterMap (fun kv => shortTipFor kv.1) := by
  induction l generalizing acc with
  | nil => simp
  | cons kv l ih =>
      rw [List.foldl_cons, ih, shortStep_eq, List.filterMap_cons]
      cases hc : shortTipFor kv.1 <;> simp [hc]

theorem foldl_longStep (l : List (String × ℚ)) (acc : List String) :
    l.foldl longStep acc = acc ++ l.filterMap (fun kv => longTipFor kv.1) := by
  induction l generalizing acc with
  | nil => simp
  | cons kv l ih =>
      rw [List.foldl_cons, ih, longStep_eq, List.filterMap_cons]
      cases hc : longTipFor kv.1 <;> simp [hc]

/-- C8: the tip generator emits, for each key of the input mappings in
their iteration order, exactly the fixed advice string the key maps to
(weakness keys drive short-term tips, strength keys drive long-term
tips), silently skipping unknown keys; in particular weaknesses
containing only "shots" yield exactly the fixed shots advice. -/
theorem C8_tips_follow_key_tables :
    (∀ strengths weaknesses : List (String × ℚ),
      (generate_tips strengths weaknesses).1 =
        weaknesses.filterMap (fun kv => shortTipFor kv.1) ∧
      (generate_tips strengths weaknesses).2 =
        strengths.filterMap (fun kv => longTipFor kv.1)) ∧
    (∀ (strengths : List (String × ℚ)) (v : ℚ),
      (generate_tips strengths [("shots", v)]).1 = [shotShortTip]) := by
  have hmain : ∀ s w : List (String × ℚ),
      (generate_tips s w).1 = w.filterMap (fun kv => shortTipFor kv.1) ∧
      (generate_tips s w).2 = s.filterMap (fun kv => longTipFor kv.1) := by
    intro s w
    unfold generate_tips
    rw [foldl_shortStep, foldl_longStep]
    simp
  refine ⟨hmain, fun s v => ?_⟩
  rw [(hmain s [("shots", v)]).1]
  simp [shortTipFor]

end RLAnalyzer
